import Mathlib

/-!
Verification of the ProblemMap analysis pipeline against its specification.

The TypeScript source is shallowly embedded: each analysis function becomes a
pure Lean function, and every interaction with the external semantic service is
made explicit by passing the service's response (or its failure) as an argument.
JavaScript truthiness on strings (the empty string is falsy) is modelled by the
`jsOrString` / `jsTruthy` helpers, and `String.prototype.includes` by
`jsIncludes`.
-/

namespace ProblemMap

/-- Model of `str.includes(sub)`: `needle` occurs contiguously in `haystack`. -/
def jsIncludes (haystack needle : String) : Bool :=
  decide (needle.data <:+: haystack.data)

/-- Model of `str.toLowerCase()` (character-wise lowering). -/
def strToLower (s : String) : String :=
  String.mk (s.data.map Char.toLower)

/-- Model of `str.substring(0, n)`. -/
def strTake (s : String) (n : Nat) : String :=
  String.mk (s.data.take n)

/-- Model of `str.charAt(0).toUpperCase() + str.slice(1)`. -/
def capitalizeFirst (s : String) : String :=
  match s.data with
  | [] => ""
  | c :: cs => String.mk (Char.toUpper c :: cs)

/-- Model of the JavaScript expression `v || dflt` for an optional string value:
the default is taken when the value is absent or the empty string (falsy). -/
def jsOrString (v : Option String) (dflt : String) : String :=
  match v with
  | none => dflt
  | some s => if s = "" then dflt else s

/-- Model of JavaScript truthiness on a nullable string: `null` and `""` are
falsy, every other string passes through. -/
def jsTruthy : Option String → Option String
  | none => none
  | some s => if s = "" then none else some s

/-- Model of `Array.from(new Set(l))`: deduplicate, keeping the first
occurrence of each element, in insertion order. -/
def jsSetFrom (l : List String) : List String :=
  l.foldl (fun acc x => if x ∈ acc then acc else acc ++ [x]) []

/-- Result shape of `analyzeProblem` (interface `ProblemAnalysis`). -/
structure ProblemAnalysis where
  summary : String
  keywords : List String
  category : String
deriving DecidableEq

/-- Outcome of the external semantic-service call made by `analyzeProblem`:
`fail` is any thrown error (network failure, non-JSON output, parse error),
`empty` is a call that returned no text, and `ok` is a response that parsed
into the constrained `ProblemAnalysis` shape. -/
inductive AnalyzeResp where
  | fail
  | empty
  | ok (analysis : ProblemAnalysis)

/-- Fallback analysis built locally in the `catch` branch of `analyzeProblem`. -/
def fallbackAnalysis (text : String) : ProblemAnalysis :=
  { summary := if 200 < text.length then strTake text 200 ++ "..." else text
    keywords := []
    category := "Other" }

/-- Embedding of `analyzeProblem(text, source)`: a successful structured
response is returned as is; an empty response throws and every thrown error is
caught, producing the local fallback analysis. -/
def analyzeProblem (text : String) (_source : String) (resp : AnalyzeResp) : ProblemAnalysis :=
  match resp with
  | AnalyzeResp.ok analysis => analysis
  | AnalyzeResp.fail => fallbackAnalysis text
  | AnalyzeResp.empty => fallbackAnalysis text

/-- Input row consumed by the cluster engine (`{ id, summary, keywords }`). -/
structure ProblemInput where
  id : String
  summary : String
  keywords : List String
deriving DecidableEq

/-- Cluster record returned by `clusterProblems`. -/
structure Cluster where
  clusterName : String
  problemIds : List String
  commonThemes : List String
  innovationGaps : Int
deriving DecidableEq

/-- Outcome of the external clustering call: `fail` is any thrown error,
`empty` a response without text, and `ok` a response parsed into a well-typed
cluster array (whose id assignment may still be arbitrary). -/
inductive ClusterResp where
  | fail
  | empty
  | ok (clusters : List Cluster)

/-- Effective grouping key of a problem in the fallback path:
`problem.keywords[0] || "other"`. -/
def effectiveKeyword (p : ProblemInput) : String :=
  jsOrString p.keywords.head? "other"

/-- One step of the fallback grouping `Map`: append the id to the entry for
key `k`, creating the entry at the end if the key is new (JavaScript `Map`
preserves key insertion order). -/
def addToGroups (gs : List (String × List String)) (k : String) (pid : String) :
    List (String × List String) :=
  if k ∈ gs.map Prod.fst then
    gs.map (fun g => if g.1 = k then (g.1, g.2 ++ [pid]) else g)
  else gs ++ [(k, [pid])]

/-- The `keywordGroups` map built by `createFallbackClusters`. -/
def keywordGroups (problems : List ProblemInput) : List (String × List String) :=
  problems.foldl (fun acc p => addToGroups acc (effectiveKeyword p) p.id) []

/-- Embedding of `createFallbackClusters`: group problem ids by their first
keyword (or `"other"`) and emit one cluster per group. -/
def createFallbackClusters (problems : List ProblemInput) : List Cluster :=
  (keywordGroups problems).map (fun g =>
    { clusterName := capitalizeFirst g.1 ++ " Related Issues"
      problemIds := g.2
      commonThemes := [g.1, "user-reported", "community-driven"]
      innovationGaps := 6 })

/-- The `missingIds` computation of `clusterProblems`: input ids (deduplicated
in first-occurrence order, as `new Set` does) that the service assigned to no
cluster. -/
def missingIds (problems : List ProblemInput) (clusters : List Cluster) : List String :=
  (jsSetFrom (problems.map (fun p => p.id))).filter
    (fun id => decide (id ∉ clusters.flatMap (fun c => c.problemIds)))

/-- Post-validation of a parsed service response in `clusterProblems`: ids the
service omitted are pushed as a "Miscellaneous Issues" cluster, then clusters
with no members are dropped. -/
def validateClusters (problems : List ProblemInput) (clusters : List Cluster) : List Cluster :=
  (if 0 < (missingIds problems clusters).length then
    clusters ++ [{ clusterName := "Miscellaneous Issues"
                   problemIds := missingIds problems clusters
                   commonThemes := ["other", "miscellaneous"]
                   innovationGaps := 5 }]
  else clusters).filter (fun c => decide (0 < c.problemIds.length))

/-- Embedding of `clusterProblems`: fewer than 3 problems are turned into
singleton clusters without any external call; otherwise a parsed service
response is post-validated by `validateClusters`, and any failure or empty
response falls back to `createFallbackClusters`. -/
def clusterProblems (problems : List ProblemInput) (resp : ClusterResp) : List Cluster :=
  if problems.length < 3 then
    problems.map (fun p =>
      { clusterName := jsOrString p.keywords.head? "Miscellaneous Issues"
        problemIds := [p.id]
        commonThemes := p.keywords.take 3
        innovationGaps := 7 })
  else
    match resp with
    | ClusterResp.ok clusters => validateClusters problems clusters
    | ClusterResp.fail => createFallbackClusters problems
    | ClusterResp.empty => createFallbackClusters problems

/-- Expert roster row (`entrepreneurs` table): a null description is modelled
as the empty string, which behaves identically under the truthiness guard in
the scoring code. -/
structure Entrepreneur where
  name : String
  organization : String
  expertise : List String
  description : String
deriving DecidableEq

/-- The fields of a stored problem consumed by `getMatchingEntrepreneurs`. -/
structure MatchProblem where
  category : Option String
  keywords : Option (List String)
deriving DecidableEq

/-- Result row of `getMatchingEntrepreneurs`: the entrepreneur augmented with
`matchScore` and `matchReasons`. -/
structure MatchResult where
  entrepreneur : Entrepreneur
  matchScore : Nat
  matchReasons : List String
deriving DecidableEq

/-- Category signal of the scorer: `+50` and one reason when the problem's
category is truthy and a case-sensitive member of the expertise tags. -/
def categorySignal (problem : MatchProblem) (e : Entrepreneur) : Nat × List String :=
  match jsTruthy problem.category with
  | some cat =>
      if cat ∈ e.expertise then (50, ["Expertise in " ++ cat]) else (0, [])
  | none => (0, [])

/-- The `matchingKeywords` filter of the scorer: problem keywords that are a
case-insensitive substring of some expertise tag or vice versa. -/
def matchingKeywords (problem : MatchProblem) (e : Entrepreneur) : List String :=
  (problem.keywords.getD []).filter (fun keyword =>
    e.expertise.any (fun tag =>
      jsIncludes (strToLower tag) (strToLower keyword) ||
      jsIncludes (strToLower keyword) (strToLower tag)))

/-- Keyword-overlap signal of the scorer: `+15` per matching keyword and one
reason, fired only when at least one keyword matches. -/
def keywordSignal (problem : MatchProblem) (e : Entrepreneur) : Nat × List String :=
  if 0 < (matchingKeywords problem e).length then
    ((matchingKeywords problem e).length * 15,
     ["Keywords: " ++ String.intercalate ", " (matchingKeywords problem e)])
  else (0, [])

/-- The `keywordMatches` filter inside the description block: problem keywords
the lowered description contains. -/
def descKeywordMatches (problem : MatchProblem) (e : Entrepreneur) : List String :=
  (problem.keywords.getD []).filter (fun keyword =>
    jsIncludes (strToLower e.description) (strToLower keyword))

/-- The `categoryMatch` part of the description block: `+20` and one reason
when the lowered description contains the truthy category. -/
def descCatPart (problem : MatchProblem) (e : Entrepreneur) : Nat × List String :=
  match jsTruthy problem.category with
  | some cat =>
      if jsIncludes (strToLower e.description) (strToLower cat) then
        (20, ["Experience in " ++ strToLower cat])
      else (0, [])
  | none => (0, [])

/-- The `keywordMatches` part of the description block: `+10` per keyword the
lowered description contains and one reason, fired only when at least one
keyword matches. -/
def descKwPart (problem : MatchProblem) (e : Entrepreneur) : Nat × List String :=
  if 0 < (descKeywordMatches problem e).length then
    ((descKeywordMatches problem e).length * 10,
     ["Background in " ++ String.intercalate ", " (descKeywordMatches problem e)])
  else (0, [])

/-- Description signal of the scorer, guarded by the truthiness of the
description: the category part followed by the keyword part. -/
def descSignal (problem : MatchProblem) (e : Entrepreneur) : Nat × List String :=
  if e.description = "" then (0, [])
  else
    ((descCatPart problem e).1 + (descKwPart problem e).1,
     (descCatPart problem e).2 ++ (descKwPart problem e).2)

/-- The per-entrepreneur score/reason accumulation of
`getMatchingEntrepreneurs`: the three signal blocks in source order. -/
def scoreEntrepreneur (problem : MatchProblem) (e : Entrepreneur) : Nat × List String :=
  ((categorySignal problem e).1 + (keywordSignal problem e).1 + (descSignal problem e).1,
   (categorySignal problem e).2 ++ (keywordSignal problem e).2 ++ (descSignal problem e).2)

/-- The `matches` array built by `getMatchingEntrepreneurs` before sorting:
only entrepreneurs with a strictly positive score are kept, in roster order. -/
def matchCandidates (problem : MatchProblem) (roster : List Entrepreneur) : List MatchResult :=
  roster.filterMap (fun e =>
    if 0 < (scoreEntrepreneur problem e).1 then
      some { entrepreneur := e
             matchScore := (scoreEntrepreneur problem e).1
             matchReasons := (scoreEntrepreneur problem e).2 }
    else none)

/-- Stable insertion step for the descending sort: the new element is placed
after every earlier element with a strictly greater or equal score. -/
def insertDesc (m : MatchResult) : List MatchResult → List MatchResult
  | [] => [m]
  | x :: xs => if m.matchScore < x.matchScore then x :: insertDesc m xs else m :: x :: xs

/-- Model of `matches.sort((a, b) => b.matchScore - a.matchScore)`: JavaScript
`Array.prototype.sort` is stable, so the comparator sorts by score descending
while equal-score elements keep their relative order. -/
def sortByScoreDesc : List MatchResult → List MatchResult
  | [] => []
  | x :: xs => insertDesc x (sortByScoreDesc xs)

/-- Embedding of `getMatchingEntrepreneurs` for a found problem: score every
roster entrepreneur, keep the positive scorers, sort by score descending. -/
def getMatchingEntrepreneurs (problem : MatchProblem) (roster : List Entrepreneur) :
    List MatchResult :=
  sortByScoreDesc (matchCandidates problem roster)

/-- Verdict returned by the Similarity Detector. -/
structure SimilarityVerdict where
  isDuplicate : Bool
  nearestId : Option String
  rationale : String
deriving DecidableEq

/-- Prior problem supplied to the Similarity Detector. -/
structure PriorProblem where
  id : String
  text : String
deriving DecidableEq

/-- Outcome of the external similarity call. -/
inductive SimResp where
  | fail
  | ok (verdict : SimilarityVerdict)

/-- Modelled from the spec: the Similarity Detector's `checkSimilarity` is not
present under `src/` (only the spec describes it). Per the spec, an empty
prior set short-circuits to "not duplicate" without calling the external
service; otherwise the service's structured verdict is returned, and an
external failure falls open to "not duplicate" with an empty rationale. The
second component of the result records whether the external service was
called. -/
def checkSimilarity (_candidateText : String) (priorProblems : List PriorProblem)
    (resp : SimResp) : SimilarityVerdict × Bool :=
  if priorProblems.isEmpty then
    ({ isDuplicate := false, nearestId := none, rationale := "" }, false)
  else
    match resp with
    | SimResp.fail => ({ isDuplicate := false, nearestId := none, rationale := "" }, true)
    | SimResp.ok verdict => (verdict, true)

/-- Raw Reddit post shape consumed by `fetchRedditData`. -/
structure RedditPost where
  id : String
  title : String
  selftext : String
  score : Int
  subreddit : String
  author : String
  author_comment_karma : Option Int
  author_link_karma : Option Int
deriving DecidableEq

/-- Problem record as inserted by the routes (`InsertProblem`). -/
structure InsertProblem where
  source : String
  subreddit : Option String
  authorUsername : Option String
  authorKarma : Option Int
  originalText : String
  summary : Option String
  keywords : Option (List String)
  category : Option String
  score : Int
  processed : Bool
deriving DecidableEq

/-- Embedding of `fetchRedditData` over an already-fetched flat list of posts:
keep text posts longer than 50 characters that are not removed or deleted, and
build unenriched problem records (summary, keywords and category all null). -/
def fetchRedditData (posts : List RedditPost) : List InsertProblem :=
  (posts.filter (fun post =>
      decide (50 < post.selftext.length) &&
      !jsIncludes post.selftext "[removed]" &&
      !jsIncludes post.selftext "[deleted]")).map (fun post =>
    { source := "Reddit"
      subreddit := some post.subreddit
      authorUsername := some post.author
      authorKarma := some (post.author_link_karma.getD 0 + post.author_comment_karma.getD 0)
      originalText := post.title ++ "\n\n" ++ post.selftext
      summary := none
      keywords := none
      category := none
      score := post.score
      processed := false })

/-- Request body of the submission route. -/
structure SubmitData where
  originalText : String
  source : String
deriving DecidableEq

/-- Embedding of the `POST /api/problems` route: reject bodies shorter than 50
characters, otherwise classify the text and persist a fully enriched record. -/
def submitProblemRoute (data : SubmitData) (resp : AnalyzeResp) : Option InsertProblem :=
  if data.originalText.length < 50 then none
  else
    let analysis := analyzeProblem data.originalText (jsOrString (some data.source) "User") resp
    some { source := data.source
           subreddit := none
           authorUsername := none
           authorKarma := none
           originalText := data.originalText
           summary := some analysis.summary
           keywords := some analysis.keywords
           category := some analysis.category
           score := 0
           processed := true }

/-- Embedding of the `POST /api/load-reddit-data` route: every fetched Reddit
record is classified and persisted with the classifier's three fields set;
`respFor` gives the service outcome for each item's text. -/
def loadRedditRoute (posts : List RedditPost) (respFor : String → AnalyzeResp) :
    List InsertProblem :=
  (fetchRedditData posts).map (fun pd =>
    let analysis := analyzeProblem pd.originalText "Reddit" (respFor pd.originalText)
    { pd with
      summary := some analysis.summary
      keywords := some analysis.keywords
      category := some analysis.category
      processed := true })

/-- Enrichment invariant from the spec: summary, keywords and category are
either all null or all populated. -/
def enrichmentInvariant (p : InsertProblem) : Prop :=
  (p.summary = none ∧ p.keywords = none ∧ p.category = none) ∨
  (p.summary.isSome ∧ p.keywords.isSome ∧ p.category.isSome)

/-- Union of all `problemIds` across a cluster list. -/
def clustersIds (cs : List Cluster) : List String :=
  cs.flatMap (fun c => c.problemIds)

/-- Partition property stated by claim C1: the ids of the returned clusters
cover every input id, contain nothing outside the input ids, and repeat no id. -/
def isPartitionOf (cs : List Cluster) (ids : List String) : Prop :=
  (clustersIds cs).Nodup ∧
  (∀ id ∈ ids, id ∈ clustersIds cs) ∧
  (∀ id ∈ clustersIds cs, id ∈ ids)

/-- Fixed category set of the classifier contract. -/
def fixedCategorySet : List String :=
  ["Traffic", "Environment", "Education", "Healthcare", "Governance", "Technology", "Other"]

/-- Output contract of `classify` stated by claim C8: category in the fixed
set and at most 5 keywords. -/
def conformsToContract (a : ProblemAnalysis) : Prop :=
  a.category ∈ fixedCategorySet ∧ a.keywords.length ≤ 5

/-- Grouping property stated by claim C7 (written from the claim's words, for
comparison with the code): two problems land in a common cluster only when
they have the same first keyword (problems without keywords agreeing among
themselves). -/
def groupedStrictlyByFirstKeyword (problems : List ProblemInput) (cs : List Cluster) : Prop :=
  ∀ p ∈ problems, ∀ q ∈ problems,
    (∃ c ∈ cs, p.id ∈ c.problemIds ∧ q.id ∈ c.problemIds) →
    p.keywords.head? = q.keywords.head?

/-- Match score stated by claim C3 (written from the claim's words, for
comparison with the code): 50 for exact category expertise, 15 per keyword
overlapping an expertise tag, 20 when the description mentions the category,
10 per keyword the description contains. -/
def specMatchScore (problem : MatchProblem) (e : Entrepreneur) : Nat :=
  (match problem.category with
   | some cat => if cat ∈ e.expertise then 50 else 0
   | none => 0) +
  15 * ((problem.keywords.getD []).filter (fun keyword =>
      e.expertise.any (fun tag =>
        jsIncludes (strToLower tag) (strToLower keyword) ||
        jsIncludes (strToLower keyword) (strToLower tag)))).length +
  (match problem.category with
   | some cat => if jsIncludes (strToLower e.description) (strToLower cat) then 20 else 0
   | none => 0) +
  10 * ((problem.keywords.getD []).filter (fun keyword =>
      jsIncludes (strToLower e.description) (strToLower keyword))).length

instance (a : ProblemAnalysis) : Decidable (conformsToContract a) := by
  unfold conformsToContract; infer_instance

instance (cs : List Cluster) (ids : List String) : Decidable (isPartitionOf cs ids) := by
  unfold isPartitionOf; infer_instance

instance (problems : List ProblemInput) (cs : List Cluster) :
    Decidable (groupedStrictlyByFirstKeyword problems cs) := by
  unfold groupedStrictlyByFirstKeyword; infer_instance

instance (p : InsertProblem) : Decidable (enrichmentInvariant p) := by
  unfold enrichmentInvariant; infer_instance

/-! Auxiliary facts about the string helpers. -/

theorem strToLower_data (s : String) : (strToLower s).data = s.data.map Char.toLower := rfl

theorem data_eq_nil_iff (s : String) : s.data = [] ↔ s = "" := by
  rw [String.ext_iff]

theorem strToLower_eq_empty_iff (s : String) : strToLower s = "" ↔ s = "" := by
  rw [← data_eq_nil_iff, strToLower_data, List.map_eq_nil_iff, data_eq_nil_iff]

theorem jsIncludes_empty_haystack {n : String} (h : n ≠ "") : jsIncludes "" n = false := by
  simp only [jsIncludes, decide_eq_false_iff_not]
  intro hinf
  rw [List.infix_nil, data_eq_nil_iff] at hinf
  exact h hinf

/-! Auxiliary facts about `jsSetFrom`. -/

theorem mem_foldl_jsSet (x : String) (l acc : List String) :
    x ∈ l.foldl (fun acc y => if y ∈ acc then acc else acc ++ [y]) acc ↔ x ∈ acc ∨ x ∈ l := by
  induction l generalizing acc with
  | nil => simp
  | cons y ys ih =>
      rw [List.foldl_cons]
      by_cases hy : y ∈ acc
      · rw [if_pos hy, ih]
        constructor
        · rintro (h | h)
          · exact Or.inl h
          · exact Or.inr (List.mem_cons_of_mem _ h)
        · rintro (h | h)
          · exact Or.inl h
          · rcases List.mem_cons.mp h with rfl | h
            · exact Or.inl hy
            · exact Or.inr h
      · rw [if_neg hy, ih]
        simp only [List.mem_append, List.mem_cons, List.not_mem_nil, or_false,
          List.mem_singleton]
        rw [or_assoc]

theorem mem_jsSetFrom (x : String) (l : List String) : x ∈ jsSetFrom l ↔ x ∈ l := by
  rw [jsSetFrom, mem_foldl_jsSet]
  simp

/-! Auxiliary facts about the fallback grouping map. -/

/-- Key/id pairs stored in a grouping map, flattened. -/
def groupPairs (gs : List (String × List String)) : List (String × String) :=
  gs.flatMap (fun g => g.2.map (fun id => (g.1, id)))

theorem groupPairs_cons (g : String × List String) (gs : List (String × List String)) :
    groupPairs (g :: gs) = g.2.map (fun id => (g.1, id)) ++ groupPairs gs := rfl

theorem addToGroups_fst (gs : List (String × List String)) (k pid : String) :
    (addToGroups gs k pid).map Prod.fst =
      if k ∈ gs.map Prod.fst then gs.map Prod.fst else gs.map Prod.fst ++ [k] := by
  by_cases hmem : k ∈ gs.map Prod.fst
  · rw [if_pos hmem]
    unfold addToGroups
    rw [if_pos hmem, List.map_map]
    apply List.map_congr_left
    intro g _
    by_cases h : g.1 = k <;> simp [Function.comp, h]
  · rw [if_neg hmem]
    unfold addToGroups
    rw [if_neg hmem]
    simp

theorem addToGroups_fst_nodup {gs : List (String × List String)} {k pid : String}
    (h : (gs.map Prod.fst).Nodup) : ((addToGroups gs k pid).map Prod.fst).Nodup := by
  rw [addToGroups_fst]
  by_cases hmem : k ∈ gs.map Prod.fst
  · rw [if_pos hmem]
    exact h
  · rw [if_neg hmem, List.nodup_append]
    refine ⟨h, List.nodup_singleton k, ?_⟩
    intro a ha hk
    rw [List.mem_singleton] at hk
    subst hk
    exact hmem ha

theorem groupPairs_bump (gs : List (String × List String)) (k pid : String)
    (hk : k ∈ gs.map Prod.fst) (hnd : (gs.map Prod.fst).Nodup) :
    (groupPairs (gs.map (fun g => if g.1 = k then (g.1, g.2 ++ [pid]) else g))).Perm
      ((k, pid) :: groupPairs gs) := by
  induction gs with
  | nil => simp at hk
  | cons g gs ih =>
      rw [List.map_cons] at hnd
      by_cases hg : g.1 = k
      · subst hg
        have hrest : ∀ g' ∈ gs, ¬(g'.1 = g.1) := by
          intro g' hg' he
          exact (List.pairwise_cons.mp hnd).1 g'.1 (List.mem_map_of_mem Prod.fst hg') he.symm
        rw [List.map_cons, if_pos rfl,
          List.map_congr_left (fun g' hg' => if_neg (hrest g' hg')), List.map_id',
          groupPairs_cons, groupPairs_cons, List.map_append]
        simp only [List.map_cons, List.map_nil, List.append_assoc, List.singleton_append]
        exact List.perm_middle
      · have hk2 : k ∈ gs.map Prod.fst := by
          rw [List.map_cons] at hk
          rcases List.mem_cons.mp hk with h | h
          · exact absurd h.symm hg
          · exact h
        rw [List.map_cons, if_neg hg, groupPairs_cons, groupPairs_cons]
        exact (List.Perm.append_left _ (ih hk2 (List.pairwise_cons.mp hnd).2)).trans
          List.perm_middle

theorem groupPairs_addToGroups (gs : List (String × List String)) (k pid : String)
    (hnd : (gs.map Prod.fst).Nodup) :
    (groupPairs (addToGroups gs k pid)).Perm ((k, pid) :: groupPairs gs) := by
  by_cases hmem : k ∈ gs.map Prod.fst
  · unfold addToGroups
    rw [if_pos hmem]
    exact groupPairs_bump gs k pid hmem hnd
  · unfold addToGroups
    rw [if_neg hmem]
    unfold groupPairs
    rw [List.flatMap_append]
    simp only [List.flatMap_singleton, List.map_cons, List.map_nil]
    exact List.perm_append_singleton _ _

theorem foldl_groups_fst_nodup (ps : List ProblemInput) (acc : List (String × List String))
    (h : (acc.map Prod.fst).Nodup) :
    (((ps.foldl (fun a p => addToGroups a (effectiveKeyword p) p.id) acc)).map Prod.fst).Nodup := by
  induction ps generalizing acc with
  | nil => exact h
  | cons p ps ih => exact ih _ (addToGroups_fst_nodup h)

theorem foldl_groups_pairs (ps : List ProblemInput) (acc : List (String × List String))
    (hnd : (acc.map Prod.fst).Nodup) :
    (groupPairs (ps.foldl (fun a p => addToGroups a (effectiveKeyword p) p.id) acc)).Perm
      (ps.map (fun p => (effectiveKeyword p, p.id)) ++ groupPairs acc) := by
  induction ps generalizing acc with
  | nil => simp
  | cons p ps ih =>
      rw [List.foldl_cons, List.map_cons]
      exact (ih _ (addToGroups_fst_nodup hnd)).trans
        ((List.Perm.append_left _ (groupPairs_addToGroups acc _ _ hnd)).trans
          List.perm_middle)

theorem keywordGroups_pairs (ps : List ProblemInput) :
    (groupPairs (keywordGroups ps)).Perm (ps.map (fun p => (effectiveKeyword p, p.id))) := by
  have h := foldl_groups_pairs ps [] (by simp)
  rw [keywordGroups]
  simpa [groupPairs] using h

theorem keywordGroups_fst_nodup (ps : List ProblemInput) :
    ((keywordGroups ps).map Prod.fst).Nodup :=
  foldl_groups_fst_nodup ps [] (by simp)

theorem foldl_groups_fst (ps : List ProblemInput) (acc : List (String × List String)) :
    (ps.foldl (fun a p => addToGroups a (effectiveKeyword p) p.id) acc).map Prod.fst =
      (ps.map effectiveKeyword).foldl
        (fun ks k => if k ∈ ks then ks else ks ++ [k]) (acc.map Prod.fst) := by
  induction ps generalizing acc with
  | nil => rfl
  | cons p ps ih =>
      rw [List.foldl_cons, List.map_cons, List.foldl_cons, ih, addToGroups_fst]

theorem keywordGroups_fst (ps : List ProblemInput) :
    (keywordGroups ps).map Prod.fst = jsSetFrom (ps.map effectiveKeyword) := by
  rw [keywordGroups, foldl_groups_fst]
  rfl

theorem flatMap_snd_eq_pairs (gs : List (String × List String)) :
    gs.flatMap (fun g => g.2) = (groupPairs gs).map Prod.snd := by
  induction gs with
  | nil => rfl
  | cons g gs ih =>
      unfold groupPairs
      rw [List.flatMap_cons, List.flatMap_cons, List.map_append, List.map_map]
      unfold groupPairs at ih
      rw [← ih]
      congr 1
      simp [Function.comp]

/-- Ids of the fallback clusters are a permutation of the input ids. -/
theorem fallback_ids_perm (ps : List ProblemInput) :
    (clustersIds (createFallbackClusters ps)).Perm (ps.map (fun p => p.id)) := by
  have h2 := List.Perm.map Prod.snd (keywordGroups_pairs ps)
  rw [List.map_map] at h2
  have h3 : (keywordGroups ps).flatMap (fun g => g.2) =
      (groupPairs (keywordGroups ps)).map Prod.snd := flatMap_snd_eq_pairs _
  show ((createFallbackClusters ps).flatMap (fun c => c.problemIds)).Perm _
  unfold createFallbackClusters
  rw [List.flatMap_map]
  simp only
  rw [h3]
  exact h2.trans (by apply List.Perm.of_eq; apply List.map_congr_left; intro p _; rfl)

/-- Ids of the small-input singleton clusters are exactly the input ids. -/
theorem small_clusters_ids (problems : List ProblemInput) :
    clustersIds (problems.map (fun p =>
      ({ clusterName := jsOrString p.keywords.head? "Miscellaneous Issues"
         problemIds := [p.id]
         commonThemes := p.keywords.take 3
         innovationGaps := 7 } : Cluster))) = problems.map (fun p => p.id) := by
  unfold clustersIds
  rw [List.flatMap_map]
  induction problems with
  | nil => rfl
  | cons p ps ih =>
      rw [List.flatMap_cons, List.map_cons, ih]
      rfl

/-- C1 (amended): for every input batch and every service response, each input
id appears in at least one returned cluster (omitted ids are repaired into the
"Miscellaneous Issues" cluster); on the small-input path and on the failure
paths the result is moreover a true partition of the (duplicate-free) input id
set. For a well-typed service response the exactness half can fail: duplicate
ids and ids outside the input set survive post-validation. -/
theorem clusterProblems_ids_amended (problems : List ProblemInput) (resp : ClusterResp) :
    (∀ id ∈ problems.map (fun p => p.id),
        ∃ c ∈ clusterProblems problems resp, id ∈ c.problemIds) ∧
    ((problems.map (fun p => p.id)).Nodup →
      (resp = ClusterResp.fail ∨ resp = ClusterResp.empty ∨ problems.length < 3) →
      isPartitionOf (clusterProblems problems resp) (problems.map (fun p => p.id))) := by
  constructor
  · intro id hid
    by_cases hlen : problems.length < 3
    · unfold clusterProblems
      rw [if_pos hlen]
      obtain ⟨p, hp, rfl⟩ := List.mem_map.mp hid
      exact ⟨_, List.mem_map_of_mem _ hp, by simp⟩
    · cases resp with
      | ok cs =>
          unfold clusterProblems
          rw [if_neg hlen]
          show ∃ c ∈ validateClusters problems cs, id ∈ c.problemIds
          by_cases hmem : id ∈ cs.flatMap (fun c => c.problemIds)
          · obtain ⟨c, hc, hidc⟩ := List.mem_flatMap.mp hmem
            have hpos : decide (0 < c.problemIds.length) = true := by
              simp only [decide_eq_true_eq, List.length_pos_iff_ne_nil]
              exact List.ne_nil_of_mem hidc
            unfold validateClusters
            by_cases hmiss : 0 < (missingIds problems cs).length
            · rw [if_pos hmiss]
              exact ⟨c, List.mem_filter.mpr ⟨List.mem_append_left _ hc, hpos⟩, hidc⟩
            · rw [if_neg hmiss]
              exact ⟨c, List.mem_filter.mpr ⟨hc, hpos⟩, hidc⟩
          · have hismiss : id ∈ missingIds problems cs := by
              unfold missingIds
              rw [List.mem_filter]
              exact ⟨(mem_jsSetFrom _ _).mpr hid, by simpa using hmem⟩
            have hmiss : 0 < (missingIds problems cs).length := by
              rw [List.length_pos_iff_ne_nil]
              exact List.ne_nil_of_mem hismiss
            unfold validateClusters
            rw [if_pos hmiss]
            refine ⟨_, List.mem_filter.mpr
              ⟨List.mem_append_right _ (List.mem_singleton.mpr rfl), by simpa using hmiss⟩,
              hismiss⟩
      | fail =>
          unfold clusterProblems
          rw [if_neg hlen]
          show ∃ c ∈ createFallbackClusters problems, id ∈ c.problemIds
          have hin : id ∈ clustersIds (createFallbackClusters problems) :=
            (fallback_ids_perm problems).mem_iff.mpr hid
          exact List.mem_flatMap.mp hin
      | empty =>
          unfold clusterProblems
          rw [if_neg hlen]
          show ∃ c ∈ createFallbackClusters problems, id ∈ c.problemIds
          have hin : id ∈ clustersIds (createFallbackClusters problems) :=
            (fallback_ids_perm problems).mem_iff.mpr hid
          exact List.mem_flatMap.mp hin
  · intro hnd hcase
    by_cases hlen : problems.length < 3
    · unfold clusterProblems
      rw [if_pos hlen]
      refine ⟨?_, ?_, ?_⟩
      · rw [small_clusters_ids]
        exact hnd
      · intro id hid
        rw [small_clusters_ids]
        exact hid
      · intro id hid
        rw [small_clusters_ids] at hid
        exact hid
    · have hfall : clusterProblems problems resp = createFallbackClusters problems := by
        rcases hcase with rfl | rfl | h
        · unfold clusterProblems
          rw [if_neg hlen]
        · unfold clusterProblems
          rw [if_neg hlen]
        · exact absurd h hlen
      rw [hfall]
      have hperm := fallback_ids_perm problems
      refine ⟨hperm.nodup_iff.mpr hnd, ?_, ?_⟩
      · intro id hid
        exact hperm.mem_iff.mpr hid
      · intro id hid
        exact hperm.mem_iff.mp hid

/-- C1 (counterexample): with three input problems and a well-typed service
response assigning "a" twice and the foreign id "z", the returned clusters are
not a partition of the input id set. -/
theorem clusterProblems_partition_counterexample :
    ¬ isPartitionOf
        (clusterProblems
          [{ id := "a", summary := "sa", keywords := ["k"] },
           { id := "b", summary := "sb", keywords := ["k"] },
           { id := "c", summary := "sc", keywords := ["k"] }]
          (ClusterResp.ok [{ clusterName := "X", problemIds := ["a", "a", "z"]
                             commonThemes := [], innovationGaps := 5 }]))
        ["a", "b", "c"] := by decide

/-- C1 (witness): coverage on the malformed-response path (the omitted id "b"
is repaired into a cluster) and the exact partition on the failure path, at
concrete inputs. -/
theorem clusterProblems_ids_amended_witness :
    (∃ c ∈ clusterProblems
        [{ id := "a", summary := "sa", keywords := ["k"] },
         { id := "b", summary := "sb", keywords := ["k"] },
         { id := "c", summary := "sc", keywords := ["k"] }]
        (ClusterResp.ok [{ clusterName := "X", problemIds := ["a", "a", "z"]
                           commonThemes := [], innovationGaps := 5 }]),
      "b" ∈ c.problemIds) ∧
    isPartitionOf
      (clusterProblems
        [{ id := "a", summary := "sa", keywords := ["k"] },
         { id := "b", summary := "sb", keywords := ["k"] },
         { id := "c", summary := "sc", keywords := ["k"] }]
        ClusterResp.fail)
      ["a", "b", "c"] :=
  ⟨(clusterProblems_ids_amended _ _).1 "b" (by decide),
   (clusterProblems_ids_amended
      [{ id := "a", summary := "sa", keywords := ["k"] },
       { id := "b", summary := "sb", keywords := ["k"] },
       { id := "c", summary := "sc", keywords := ["k"] }]
      ClusterResp.fail).2 (by decide) (Or.inl rfl)⟩

/-- C6 (amended): on fewer than 3 problems the result does not depend on the
service response (no external call) and is one singleton cluster per input
problem, named after the problem's first keyword — with the generic label
"Miscellaneous Issues" also when the first keyword is the empty string, since
JavaScript `keywords[0] || ...` treats `""` as absent — themes equal to the
first up-to-3 keywords and a fixed innovation gap of 7. -/
theorem clusterProblems_small_input (problems : List ProblemInput) (resp : ClusterResp)
    (h : problems.length < 3) :
    (∀ resp2, clusterProblems problems resp = clusterProblems problems resp2) ∧
    clusterProblems problems resp =
      problems.map (fun p =>
        { clusterName := jsOrString p.keywords.head? "Miscellaneous Issues"
          problemIds := [p.id]
          commonThemes := p.keywords.take 3
          innovationGaps := 7 }) := by
  constructor
  · intro resp2
    unfold clusterProblems
    rw [if_pos h, if_pos h]
  · unfold clusterProblems
    rw [if_pos h]

/-- C6 (counterexample): a single problem whose keyword list is the non-empty
list `[""]` is given the generic cluster name, not its first keyword. -/
theorem clusterProblems_small_counterexample :
    (clusterProblems [{ id := "a", summary := "s", keywords := [""] }]
        ClusterResp.fail).map (fun c => c.clusterName) ≠ [""] := by decide

/-- C6 (witness): a concrete one-problem input produces exactly the singleton
cluster named after its first keyword, independently of the response. -/
theorem clusterProblems_small_input_witness :
    clusterProblems
        [{ id := "p1", summary := "s", keywords := ["water", "supply", "urban", "extra"] }]
        (ClusterResp.ok []) =
      [{ clusterName := "water", problemIds := ["p1"]
         commonThemes := ["water", "supply", "urban"], innovationGaps := 7 }] := by
  rw [(clusterProblems_small_input _ (ClusterResp.ok []) (by decide)).2]
  decide

/-- C7 (amended): when at least 3 problems are submitted and the external call
fails or returns no text, the result is the deterministic fallback clustering:
one cluster per distinct effective first keyword (problems with no keywords
and — amending the claim — problems whose first keyword is the empty string
share the generic "other" bucket, since `keywords[0] || "other"` treats `""`
as absent), themes equal to the keyword plus two fixed tags, a fixed gap of 6,
every member of a cluster being a problem with that cluster's keyword, and
every problem placed in the cluster of its keyword. -/
theorem clusterProblems_failure_fallback (problems : List ProblemInput) (resp : ClusterResp)
    (hn : 3 ≤ problems.length)
    (h : resp = ClusterResp.fail ∨ resp = ClusterResp.empty) :
    clusterProblems problems resp = createFallbackClusters problems ∧
    (createFallbackClusters problems).map (fun c => c.commonThemes) =
      (jsSetFrom (problems.map effectiveKeyword)).map
        (fun k => [k, "user-reported", "community-driven"]) ∧
    (∀ c ∈ createFallbackClusters problems, c.innovationGaps = 6) ∧
    (∀ c ∈ createFallbackClusters problems, ∀ id ∈ c.problemIds,
        ∃ p ∈ problems, p.id = id ∧ some (effectiveKeyword p) = c.commonThemes.head?) ∧
    (∀ p ∈ problems, ∃ c ∈ createFallbackClusters problems,
        p.id ∈ c.problemIds ∧ c.commonThemes.head? = some (effectiveKeyword p)) := by
  have hlen : ¬ problems.length < 3 := by omega
  refine ⟨?_, ?_, ?_, ?_, ?_⟩
  · rcases h with rfl | rfl
    · unfold clusterProblems
      rw [if_neg hlen]
    · unfold clusterProblems
      rw [if_neg hlen]
  · unfold createFallbackClusters
    rw [List.map_map, ← keywordGroups_fst, List.map_map]
    rfl
  · intro c hc
    obtain ⟨g, _, rfl⟩ := List.mem_map.mp hc
    rfl
  · intro c hc id hid
    obtain ⟨g, hg, rfl⟩ := List.mem_map.mp hc
    have hpair : (g.1, id) ∈ groupPairs (keywordGroups problems) := by
      unfold groupPairs
      exact List.mem_flatMap.mpr ⟨g, hg, List.mem_map_of_mem _ hid⟩
    have hmem := (keywordGroups_pairs problems).mem_iff.mp hpair
    obtain ⟨p, hp, hpe⟩ := List.mem_map.mp hmem
    obtain ⟨h1, h2⟩ := Prod.mk.injEq .. ▸ hpe
    exact ⟨p, hp, h2, by rw [h1]; rfl⟩
  · intro p hp
    have hpair : (effectiveKeyword p, p.id) ∈ groupPairs (keywordGroups problems) :=
      (keywordGroups_pairs problems).mem_iff.mpr (List.mem_map_of_mem _ hp)
    obtain ⟨g, hg, hmem⟩ := List.mem_flatMap.mp hpair
    obtain ⟨i, hi, hie⟩ := List.mem_map.mp hmem
    obtain ⟨h1, h2⟩ := Prod.mk.injEq .. ▸ hie
    refine ⟨_, List.mem_map_of_mem
      (fun g => ({ clusterName := capitalizeFirst g.1 ++ " Related Issues"
                   problemIds := g.2
                   commonThemes := [g.1, "user-reported", "community-driven"]
                   innovationGaps := 6 } : Cluster)) hg, ?_, ?_⟩
    · rw [← h2]
      exact hi
    · show some g.1 = some (effectiveKeyword p)
      rw [h1]

/-- C7 (counterexample): on the failure path, a problem whose first keyword is
the empty string is merged into the generic bucket with a problem that has no
keywords at all, so the problems are not grouped strictly by their first
keyword. -/
theorem clusterProblems_fallback_counterexample :
    ¬ groupedStrictlyByFirstKeyword
        [{ id := "a", summary := "sa", keywords := [""] },
         { id := "b", summary := "sb", keywords := [] },
         { id := "c", summary := "sc", keywords := ["x"] }]
        (clusterProblems
          [{ id := "a", summary := "sa", keywords := [""] },
           { id := "b", summary := "sb", keywords := [] },
           { id := "c", summary := "sc", keywords := ["x"] }]
          ClusterResp.fail) := by decide

/-- C7 (witness): at a concrete 3-problem input the failure path returns the
deterministic fallback clustering. -/
theorem clusterProblems_failure_fallback_witness :
    clusterProblems
        [{ id := "a", summary := "sa", keywords := ["water"] },
         { id := "b", summary := "sb", keywords := ["water"] },
         { id := "c", summary := "sc", keywords := ["roads"] }]
        ClusterResp.fail =
      createFallbackClusters
        [{ id := "a", summary := "sa", keywords := ["water"] },
         { id := "b", summary := "sb", keywords := ["water"] },
         { id := "c", summary := "sc", keywords := ["roads"] }] :=
  (clusterProblems_failure_fallback _ ClusterResp.fail (by decide) (Or.inl rfl)).1

/-- C2: on any external failure (thrown error or empty response) the
classifier does not propagate the error and returns the local fallback: the
text truncated to its first 200 characters followed by an ellipsis when
longer than 200 characters (the text unchanged otherwise), no keywords, and
the catch-all category "Other". -/
theorem analyzeProblem_failure_fallback (text source : String) (resp : AnalyzeResp)
    (h : resp = AnalyzeResp.fail ∨ resp = AnalyzeResp.empty) :
    analyzeProblem text source resp =
      { summary := if 200 < text.length then strTake text 200 ++ "..." else text
        keywords := []
        category := "Other" } := by
  rcases h with rfl | rfl <;> rfl

set_option maxRecDepth 4000 in
/-- C2 (witness): a 250-character text is truncated to 200 characters plus an
ellipsis, and a short text is returned unchanged, both with no keywords and
category "Other". -/
theorem analyzeProblem_failure_fallback_witness :
    analyzeProblem (String.mk (List.replicate 250 'x')) "Direct" AnalyzeResp.fail =
      { summary := String.mk (List.replicate 200 'x') ++ "..."
        keywords := []
        category := "Other" } ∧
    analyzeProblem "short text" "Reddit" AnalyzeResp.empty =
      { summary := "short text", keywords := [], category := "Other" } := by
  constructor
  · rw [analyzeProblem_failure_fallback _ "Direct" _ (Or.inl rfl)]
    decide
  · rw [analyzeProblem_failure_fallback _ "Reddit" _ (Or.inr rfl)]
    decide

/-- C5: with an empty prior set, `checkSimilarity` returns a "not duplicate"
verdict and does not call the external service, no matter what the service
would have answered. -/
theorem checkSimilarity_empty_prior (text : String) (resp : SimResp) :
    (checkSimilarity text [] resp).1.isDuplicate = false ∧
    (checkSimilarity text [] resp).2 = false := by
  exact ⟨rfl, rfl⟩

/-- C8 (amended): the classifier output conforms to the contract (category in
the fixed set, at most 5 keywords) on every failure path, and on the success
path whenever the parsed service response itself conforms; a well-typed but
non-conforming response is returned unvalidated, so conformance is not
unconditional. -/
theorem analyzeProblem_contract_amended (text source : String) (resp : AnalyzeResp)
    (h : ∀ a, resp = AnalyzeResp.ok a → conformsToContract a) :
    conformsToContract (analyzeProblem text source resp) := by
  cases resp with
  | ok a => exact h a rfl
  | fail =>
      refine ⟨?_, ?_⟩
      · show "Other" ∈ fixedCategorySet
        decide
      · show List.length ([] : List String) ≤ 5
        decide
  | empty =>
      refine ⟨?_, ?_⟩
      · show "Other" ∈ fixedCategorySet
        decide
      · show List.length ([] : List String) ≤ 5
        decide

/-- C8 (counterexample): a well-typed service response with six keywords and a
category outside the fixed set is returned as is, so the output violates the
contract. -/
theorem analyzeProblem_contract_counterexample :
    ¬ conformsToContract
        (analyzeProblem "t" "Direct"
          (AnalyzeResp.ok { summary := "sum"
                            keywords := ["a", "b", "c", "d", "e", "f"]
                            category := "Banana" })) := by decide

/-- C8 (witness): on a concrete failure the returned fallback conforms to the
contract. -/
theorem analyzeProblem_contract_amended_witness :
    conformsToContract (analyzeProblem "t" "Direct" AnalyzeResp.fail) :=
  analyzeProblem_contract_amended "t" "Direct" AnalyzeResp.fail
    (fun _ ha => AnalyzeResp.noConfusion ha)

/-! Auxiliary facts about the stable descending sort. -/

theorem insertDesc_perm (m : MatchResult) (l : List MatchResult) :
    (insertDesc m l).Perm (m :: l) := by
  induction l with
  | nil => exact List.Perm.refl _
  | cons x xs ih =>
      unfold insertDesc
      by_cases h : m.matchScore < x.matchScore
      · rw [if_pos h]
        exact (List.Perm.cons x ih).trans (List.Perm.swap m x xs)
      · rw [if_neg h]

theorem sortByScoreDesc_perm (l : List MatchResult) : (sortByScoreDesc l).Perm l := by
  induction l with
  | nil => exact List.Perm.refl _
  | cons x xs ih =>
      unfold sortByScoreDesc
      exact (insertDesc_perm x (sortByScoreDesc xs)).trans (List.Perm.cons x ih)

theorem insertDesc_pairwise (m : MatchResult) (l : List MatchResult)
    (h : l.Pairwise (fun a b => b.matchScore ≤ a.matchScore)) :
    (insertDesc m l).Pairwise (fun a b => b.matchScore ≤ a.matchScore) := by
  induction l with
  | nil => simp [insertDesc]
  | cons x xs ih =>
      rw [List.pairwise_cons] at h
      unfold insertDesc
      by_cases hc : m.matchScore < x.matchScore
      · rw [if_pos hc, List.pairwise_cons]
        refine ⟨?_, ih h.2⟩
        intro y hy
        rcases List.mem_cons.mp ((insertDesc_perm m xs).mem_iff.mp hy) with rfl | hy2
        · exact Nat.le_of_lt hc
        · exact h.1 y hy2
      · rw [if_neg hc, List.pairwise_cons]
        refine ⟨?_, List.pairwise_cons.mpr h⟩
        intro y hy
        rcases List.mem_cons.mp hy with rfl | hy2
        · exact Nat.le_of_not_lt hc
        · exact le_trans (h.1 y hy2) (Nat.le_of_not_lt hc)

theorem sortByScoreDesc_pairwise (l : List MatchResult) :
    (sortByScoreDesc l).Pairwise (fun a b => b.matchScore ≤ a.matchScore) := by
  induction l with
  | nil => simp [sortByScoreDesc]
  | cons x xs ih =>
      unfold sortByScoreDesc
      exact insertDesc_pairwise x _ ih

theorem insertDesc_filter (m : MatchResult) (l : List MatchResult) (s : Nat) :
    (insertDesc m l).filter (fun x => decide (x.matchScore = s)) =
      if m.matchScore = s then
        m :: l.filter (fun x => decide (x.matchScore = s))
      else l.filter (fun x => decide (x.matchScore = s)) := by
  induction l with
  | nil =>
      unfold insertDesc
      by_cases h : m.matchScore = s <;> simp [h]
  | cons x xs ih =>
      unfold insertDesc
      by_cases hc : m.matchScore < x.matchScore
      · rw [if_pos hc, List.filter_cons, List.filter_cons]
        by_cases hm : m.matchScore = s <;> by_cases hx : x.matchScore = s
        · exact absurd (hm.trans hx.symm) (Nat.ne_of_lt hc)
        · simp [hm, hx, ih]
        · simp [hm, hx, ih]
        · simp [hm, hx, ih]
      · rw [if_neg hc, List.filter_cons]
        by_cases hm : m.matchScore = s <;> simp [hm]

theorem sortByScoreDesc_filter (l : List MatchResult) (s : Nat) :
    (sortByScoreDesc l).filter (fun x => decide (x.matchScore = s)) =
      l.filter (fun x => decide (x.matchScore = s)) := by
  induction l with
  | nil => rfl
  | cons x xs ih =>
      unfold sortByScoreDesc
      rw [insertDesc_filter, List.filter_cons]
      by_cases hx : x.matchScore = s <;> simp [hx, ih]

/-- C4: the match list is a permutation of the positive scorers taken in
roster order, is sorted descending by score, preserves within each score
class the original roster order (the characterization of a stable sort), every
returned entry has a strictly positive score, and every roster expert with a
strictly positive score appears in the result. -/
theorem getMatchingEntrepreneurs_ranking (problem : MatchProblem) (roster : List Entrepreneur) :
    (getMatchingEntrepreneurs problem roster).Perm (matchCandidates problem roster) ∧
    (getMatchingEntrepreneurs problem roster).Pairwise
      (fun a b => b.matchScore ≤ a.matchScore) ∧
    (∀ s, (getMatchingEntrepreneurs problem roster).filter (fun m => decide (m.matchScore = s)) =
        (matchCandidates problem roster).filter (fun m => decide (m.matchScore = s))) ∧
    (∀ m ∈ getMatchingEntrepreneurs problem roster, 0 < m.matchScore) ∧
    (∀ e ∈ roster, 0 < (scoreEntrepreneur problem e).1 →
        ∃ m ∈ getMatchingEntrepreneurs problem roster,
          m.entrepreneur = e ∧ m.matchScore = (scoreEntrepreneur problem e).1) := by
  refine ⟨sortByScoreDesc_perm _, sortByScoreDesc_pairwise _,
    fun s => sortByScoreDesc_filter _ s, ?_, ?_⟩
  · intro m hm
    have hmem : m ∈ matchCandidates problem roster :=
      (sortByScoreDesc_perm _).mem_iff.mp hm
    obtain ⟨e, _, hme⟩ := List.mem_filterMap.mp hmem
    by_cases hpos : 0 < (scoreEntrepreneur problem e).1
    · rw [if_pos hpos] at hme
      injection hme with h
      subst h
      exact hpos
    · rw [if_neg hpos] at hme
      exact absurd hme (by simp)
  · intro e he hpos
    have hmem : ({ entrepreneur := e
                   matchScore := (scoreEntrepreneur problem e).1
                   matchReasons := (scoreEntrepreneur problem e).2 } : MatchResult) ∈
        matchCandidates problem roster :=
      List.mem_filterMap.mpr ⟨e, he, by rw [if_pos hpos]⟩
    exact ⟨_, (sortByScoreDesc_perm _).mem_iff.mpr hmem, rfl, rfl⟩

/-- C4 (witness): at the spec's three-expert example (scores 50, 0, 20) the
positive scorers appear in the result with their scores. -/
theorem getMatchingEntrepreneurs_ranking_witness :
    ∃ m ∈ getMatchingEntrepreneurs { category := some "Healthcare", keywords := some [] }
        [{ name := "A", organization := "O", expertise := ["Healthcare"], description := "" },
         { name := "B", organization := "O", expertise := ["Finance"], description := "" },
         { name := "C", organization := "O", expertise := []
           description := "works on healthcare and traffic" }],
      m.entrepreneur = { name := "A", organization := "O", expertise := ["Healthcare"]
                         description := "" } ∧
      m.matchScore = 50 :=
  (getMatchingEntrepreneurs_ranking { category := some "Healthcare", keywords := some [] }
      [{ name := "A", organization := "O", expertise := ["Healthcare"], description := "" },
       { name := "B", organization := "O", expertise := ["Finance"], description := "" },
       { name := "C", organization := "O", expertise := []
         description := "works on healthcare and traffic" }]).2.2.2.2
    { name := "A", organization := "O", expertise := ["Healthcare"], description := "" }
    (by decide) (by decide)

/-! Auxiliary facts about the scoring signals. -/

theorem jsTruthy_some {c : String} (h : c ≠ "") : jsTruthy (some c) = some c := by
  show (if c = "" then none else some c) = some c
  rw [if_neg h]

theorem categorySignal_cases (problem : MatchProblem) (e : Entrepreneur) :
    categorySignal problem e = (0, []) ∨
    (0 < (categorySignal problem e).1 ∧ (categorySignal problem e).2 ≠ []) := by
  unfold categorySignal
  split
  next cat hcat =>
    by_cases h : cat ∈ e.expertise
    · rw [if_pos h]
      exact Or.inr ⟨(by decide : (0 : Nat) < 50), by simp⟩
    · rw [if_neg h]
      exact Or.inl rfl
  next => exact Or.inl rfl

theorem keywordSignal_cases (problem : MatchProblem) (e : Entrepreneur) :
    keywordSignal problem e = (0, []) ∨
    (0 < (keywordSignal problem e).1 ∧ (keywordSignal problem e).2 ≠ []) := by
  unfold keywordSignal
  by_cases h : 0 < (matchingKeywords problem e).length
  · rw [if_pos h]
    exact Or.inr ⟨Nat.mul_pos h (by decide), by simp⟩
  · rw [if_neg h]
    exact Or.inl rfl

theorem descCatPart_cases (problem : MatchProblem) (e : Entrepreneur) :
    descCatPart problem e = (0, []) ∨
    (0 < (descCatPart problem e).1 ∧ (descCatPart problem e).2 ≠ []) := by
  unfold descCatPart
  split
  next cat hcat =>
    by_cases h : jsIncludes (strToLower e.description) (strToLower cat) = true
    · rw [if_pos h]
      exact Or.inr ⟨(by decide : (0 : Nat) < 20), by simp⟩
    · rw [if_neg h]
      exact Or.inl rfl
  next => exact Or.inl rfl

theorem descKwPart_cases (problem : MatchProblem) (e : Entrepreneur) :
    descKwPart problem e = (0, []) ∨
    (0 < (descKwPart problem e).1 ∧ (descKwPart problem e).2 ≠ []) := by
  unfold descKwPart
  by_cases h : 0 < (descKeywordMatches problem e).length
  · rw [if_pos h]
    exact Or.inr ⟨Nat.mul_pos h (by decide), by simp⟩
  · rw [if_neg h]
    exact Or.inl rfl

/-- Combination law of the signal accumulation: a sum of signals has a
positive score exactly when it has accumulated at least one reason, provided
each signal contributes score and reason together. -/
theorem combinedPair_iff (a b c : Nat × List String)
    (ha : a = (0, []) ∨ (0 < a.1 ∧ a.2 ≠ []))
    (hb : b = (0, []) ∨ (0 < b.1 ∧ b.2 ≠ []))
    (hc : c = (0, []) ∨ (0 < c.1 ∧ c.2 ≠ [])) :
    a.2 ++ b.2 ++ c.2 ≠ [] ↔ 0 < a.1 + b.1 + c.1 := by
  constructor
  · intro h
    by_contra h0
    have ha1 : a.1 = 0 := by omega
    have hb1 : b.1 = 0 := by omega
    have hc1 : c.1 = 0 := by omega
    have ha2 : a.2 = [] := by
      rcases ha with rfl | ⟨hp, _⟩
      · rfl
      · omega
    have hb2 : b.2 = [] := by
      rcases hb with rfl | ⟨hp, _⟩
      · rfl
      · omega
    have hc2 : c.2 = [] := by
      rcases hc with rfl | ⟨hp, _⟩
      · rfl
      · omega
    rw [ha2, hb2, hc2] at h
    exact h rfl
  · intro h heq
    rw [List.append_eq_nil, List.append_eq_nil] at heq
    obtain ⟨⟨ha2, hb2⟩, hc2⟩ := heq
    have ha1 : a.1 = 0 := by
      rcases ha with rfl | ⟨_, hne⟩
      · rfl
      · exact absurd ha2 hne
    have hb1 : b.1 = 0 := by
      rcases hb with rfl | ⟨_, hne⟩
      · rfl
      · exact absurd hb2 hne
    have hc1 : c.1 = 0 := by
      rcases hc with rfl | ⟨_, hne⟩
      · rfl
      · exact absurd hc2 hne
    omega

theorem descSignal_cases (problem : MatchProblem) (e : Entrepreneur) :
    descSignal problem e = (0, []) ∨
    (0 < (descSignal problem e).1 ∧ (descSignal problem e).2 ≠ []) := by
  unfold descSignal
  by_cases hd : e.description = ""
  · rw [if_pos hd]
    exact Or.inl rfl
  · rw [if_neg hd]
    rcases descCatPart_cases problem e with h1 | h1 <;>
      rcases descKwPart_cases problem e with h2 | h2
    · rw [h1, h2]
      exact Or.inl rfl
    · refine Or.inr ⟨by omega, ?_⟩
      intro heq
      rw [List.append_eq_nil] at heq
      exact h2.2 heq.2
    · refine Or.inr ⟨by omega, ?_⟩
      intro heq
      rw [List.append_eq_nil] at heq
      exact h1.2 heq.1
    · refine Or.inr ⟨by omega, ?_⟩
      intro heq
      rw [List.append_eq_nil] at heq
      exact h1.2 heq.1

/-- Reasons accumulate exactly with score: the scorer's reason list is
non-empty precisely when its total is strictly positive. -/
theorem scoreEntrepreneur_reasons_iff (problem : MatchProblem) (e : Entrepreneur) :
    (scoreEntrepreneur problem e).2 ≠ [] ↔ 0 < (scoreEntrepreneur problem e).1 :=
  combinedPair_iff _ _ _ (categorySignal_cases problem e) (keywordSignal_cases problem e)
    (descSignal_cases problem e)

/-- C10: an expert's accumulated reasons list is non-empty exactly when their
total score is strictly positive, and therefore every entry returned by
`getMatchingEntrepreneurs` carries a non-empty `matchReasons` list. -/
theorem matchReasons_explainable (problem : MatchProblem) (roster : List Entrepreneur)
    (e : Entrepreneur) :
    ((scoreEntrepreneur problem e).2 ≠ [] ↔ 0 < (scoreEntrepreneur problem e).1) ∧
    (∀ m ∈ getMatchingEntrepreneurs problem roster, m.matchReasons ≠ []) := by
  refine ⟨scoreEntrepreneur_reasons_iff problem e, ?_⟩
  intro m hm
  have hmem : m ∈ matchCandidates problem roster :=
    (sortByScoreDesc_perm _).mem_iff.mp hm
  obtain ⟨e2, _, hme⟩ := List.mem_filterMap.mp hmem
  by_cases hpos : 0 < (scoreEntrepreneur problem e2).1
  · rw [if_pos hpos] at hme
    injection hme with h
    subst h
    exact (scoreEntrepreneur_reasons_iff problem e2).mpr hpos
  · rw [if_neg hpos] at hme
    exact absurd hme (by simp)

/-- C10 (witness): a concrete returned match carries a non-empty reasons
list. -/
theorem matchReasons_explainable_witness :
    ({ entrepreneur := { name := "A", organization := "O", expertise := ["Healthcare"]
                         description := "" }
       matchScore := 50
       matchReasons := ["Expertise in Healthcare"] } : MatchResult).matchReasons ≠ [] :=
  (matchReasons_explainable { category := some "Healthcare", keywords := some [] }
      [{ name := "A", organization := "O", expertise := ["Healthcare"], description := "" }]
      { name := "A", organization := "O", expertise := ["Healthcare"], description := "" }).2
    { entrepreneur := { name := "A", organization := "O", expertise := ["Healthcare"]
                        description := "" }
      matchScore := 50
      matchReasons := ["Expertise in Healthcare"] }
    (by decide)

/-! Term-level evaluation of the scoring signals, used to compare the scorer
with the claim's formula. -/

theorem categorySignal_fst (problem : MatchProblem) (e : Entrepreneur)
    (hc : problem.category ≠ some "") :
    (categorySignal problem e).1 =
      (match problem.category with
       | some cat => if cat ∈ e.expertise then (50 : Nat) else 0
       | none => 0) := by
  unfold categorySignal
  cases hcat : problem.category with
  | none => rfl
  | some c =>
      have hcne : c ≠ "" := by
        intro he
        rw [he] at hcat
        exact hc hcat
      rw [jsTruthy_some hcne]
      show (if c ∈ e.expertise then ((50 : Nat), ["Expertise in " ++ c])
            else ((0 : Nat), ([] : List String))).1 =
          (if c ∈ e.expertise then (50 : Nat) else 0)
      by_cases h : c ∈ e.expertise
      · rw [if_pos h, if_pos h]
      · rw [if_neg h, if_neg h]

theorem keywordSignal_fst (problem : MatchProblem) (e : Entrepreneur) :
    (keywordSignal problem e).1 = 15 * (matchingKeywords problem e).length := by
  unfold keywordSignal
  by_cases h : 0 < (matchingKeywords problem e).length
  · rw [if_pos h]
    exact Nat.mul_comm _ _
  · rw [if_neg h]
    have h0 : (matchingKeywords problem e).length = 0 := by omega
    rw [h0]

theorem descCatPart_fst (problem : MatchProblem) (e : Entrepreneur)
    (hc : problem.category ≠ some "") :
    (descCatPart problem e).1 =
      (match problem.category with
       | some cat =>
           if jsIncludes (strToLower e.description) (strToLower cat) then (20 : Nat) else 0
       | none => 0) := by
  unfold descCatPart
  cases hcat : problem.category with
  | none => rfl
  | some c =>
      have hcne : c ≠ "" := by
        intro he
        rw [he] at hcat
        exact hc hcat
      rw [jsTruthy_some hcne]
      show (if jsIncludes (strToLower e.description) (strToLower c) = true then
              ((20 : Nat), ["Experience in " ++ strToLower c])
            else ((0 : Nat), ([] : List String))).1 =
          (if jsIncludes (strToLower e.description) (strToLower c) = true then (20 : Nat) else 0)
      by_cases h : jsIncludes (strToLower e.description) (strToLower c) = true
      · rw [if_pos h, if_pos h]
      · rw [if_neg h, if_neg h]

theorem descKwPart_fst (problem : MatchProblem) (e : Entrepreneur) :
    (descKwPart problem e).1 = 10 * (descKeywordMatches problem e).length := by
  unfold descKwPart
  by_cases h : 0 < (descKeywordMatches problem e).length
  · rw [if_pos h]
    exact Nat.mul_comm _ _
  · rw [if_neg h]
    have h0 : (descKeywordMatches problem e).length = 0 := by omega
    rw [h0]

theorem descKeywordMatches_of_empty_desc (problem : MatchProblem) (e : Entrepreneur)
    (hk : "" ∉ problem.keywords.getD []) (hd : e.description = "") :
    descKeywordMatches problem e = [] := by
  unfold descKeywordMatches
  rw [List.filter_eq_nil_iff]
  intro k hkmem
  have hkne : k ≠ "" := fun he => hk (he ▸ hkmem)
  have hlow : strToLower k ≠ "" := fun he => hkne ((strToLower_eq_empty_iff k).mp he)
  rw [hd, show strToLower "" = "" from rfl, jsIncludes_empty_haystack hlow]
  simp

theorem descSignal_fst (problem : MatchProblem) (e : Entrepreneur)
    (hk : "" ∉ problem.keywords.getD []) (hc : problem.category ≠ some "") :
    (descSignal problem e).1 =
      (match problem.category with
       | some cat =>
           if jsIncludes (strToLower e.description) (strToLower cat) then (20 : Nat) else 0
       | none => 0) + 10 * (descKeywordMatches problem e).length := by
  unfold descSignal
  by_cases hd : e.description = ""
  · rw [if_pos hd, descKeywordMatches_of_empty_desc problem e hk hd]
    cases hcat : problem.category with
    | none => rfl
    | some c =>
        have hcne : c ≠ "" := by
          intro he
          rw [he] at hcat
          exact hc hcat
        have hlow : strToLower c ≠ "" := fun he => hcne ((strToLower_eq_empty_iff c).mp he)
        rw [hd, show strToLower "" = "" from rfl]
        show ((0 : Nat), ([] : List String)).1 =
          (if jsIncludes "" (strToLower c) = true then (20 : Nat) else 0) +
            10 * List.length ([] : List String)
        rw [jsIncludes_empty_haystack hlow]
        simp
  · rw [if_neg hd, descCatPart_fst problem e hc, descKwPart_fst problem e]

/-- C3 (amended): provided no problem keyword is the empty string and the
category, when present, is not the empty string — under JavaScript truthiness
the code treats an empty category or an empty (null) description as absent,
which the claim's unconditional formula does not — the match score equals the
claim's sum: 50 for exact category expertise, 15 per keyword overlapping an
expertise tag, 20 when the description mentions the category, and 10 per
keyword the description contains. -/
theorem scoreEntrepreneur_formula (problem : MatchProblem) (e : Entrepreneur)
    (hk : "" ∉ problem.keywords.getD []) (hc : problem.category ≠ some "") :
    (scoreEntrepreneur problem e).1 = specMatchScore problem e := by
  show (categorySignal problem e).1 + (keywordSignal problem e).1 + (descSignal problem e).1 = _
  rw [categorySignal_fst problem e hc, keywordSignal_fst problem e,
    descSignal_fst problem e hk hc]
  unfold specMatchScore matchingKeywords descKeywordMatches
  omega

/-- C3 (counterexample): for a problem whose only keyword is the empty string
and an expert with an empty (null) description, the code's truthiness guard
skips the description block and scores 0, while the claim's formula counts the
empty keyword as contained in the description and yields 10. -/
theorem scoreEntrepreneur_formula_counterexample :
    (scoreEntrepreneur { category := none, keywords := some [""] }
        { name := "E", organization := "O", expertise := [], description := "" }).1 ≠
      specMatchScore { category := none, keywords := some [""] }
        { name := "E", organization := "O", expertise := [], description := "" } := by decide

/-- C3 (witness): at a concrete problem and expert firing all four signals
(50 + 2 x 15 + 20 + 2 x 10 - one keyword matching both an expertise tag and
the description) the scorer agrees with the claim's formula. -/
theorem scoreEntrepreneur_formula_witness :
    (scoreEntrepreneur { category := some "Healthcare", keywords := some ["clinic", "ai"] }
        { name := "E", organization := "O", expertise := ["Healthcare", "AI tools"]
          description := "Experience in healthcare and clinic software" }).1 =
      specMatchScore { category := some "Healthcare", keywords := some ["clinic", "ai"] }
        { name := "E", organization := "O", expertise := ["Healthcare", "AI tools"]
          description := "Experience in healthcare and clinic software" } :=
  scoreEntrepreneur_formula _ _ (by decide) (by decide)

/-- C9: every problem record the modelled system creates satisfies the
all-or-nothing enrichment invariant — records built by `fetchRedditData` have
summary, keywords and category all null, and records persisted by the
submission route and the Reddit-load route have all three populated, the
classifier fallback included. -/
theorem enrichment_all_or_nothing (posts : List RedditPost) (data : SubmitData)
    (resp : AnalyzeResp) (respFor : String → AnalyzeResp) :
    (∀ p ∈ fetchRedditData posts,
        p.summary = none ∧ p.keywords = none ∧ p.category = none ∧ enrichmentInvariant p) ∧
    (∀ rec, submitProblemRoute data resp = some rec →
        rec.summary.isSome ∧ rec.keywords.isSome ∧ rec.category.isSome ∧
        enrichmentInvariant rec) ∧
    (∀ p ∈ loadRedditRoute posts respFor,
        p.summary.isSome ∧ p.keywords.isSome ∧ p.category.isSome ∧ enrichmentInvariant p) := by
  refine ⟨?_, ?_, ?_⟩
  · intro p hp
    unfold fetchRedditData at hp
    obtain ⟨post, _, rfl⟩ := List.mem_map.mp hp
    exact ⟨rfl, rfl, rfl, Or.inl ⟨rfl, rfl, rfl⟩⟩
  · intro rec hrec
    unfold submitProblemRoute at hrec
    by_cases hlen : data.originalText.length < 50
    · rw [if_pos hlen] at hrec
      exact absurd hrec (by simp)
    · rw [if_neg hlen] at hrec
      injection hrec with h
      subst h
      exact ⟨rfl, rfl, rfl, Or.inr ⟨rfl, rfl, rfl⟩⟩
  · intro p hp
    unfold loadRedditRoute at hp
    obtain ⟨pd, _, rfl⟩ := List.mem_map.mp hp
    exact ⟨rfl, rfl, rfl, Or.inr ⟨rfl, rfl, rfl⟩⟩

set_option maxRecDepth 4000 in
/-- C9 (witness): the record persisted by the submission route for a concrete
60-character text under a failing classifier satisfies the enrichment
invariant with all three fields populated. -/
theorem enrichment_all_or_nothing_witness :
    enrichmentInvariant
      { source := "User"
        subreddit := none
        authorUsername := none
        authorKarma := none
        originalText := String.mk (List.replicate 60 'q')
        summary := some (String.mk (List.replicate 60 'q'))
        keywords := some []
        category := some "Other"
        score := 0
        processed := true } :=
  ((enrichment_all_or_nothing []
      { originalText := String.mk (List.replicate 60 'q'), source := "User" }
      AnalyzeResp.fail (fun _ => AnalyzeResp.fail)).2.1 _ (by decide)).2.2.2

end ProblemMap
